import Mathlib

/-!
Shallow embedding of the transcript-selection and export pipeline of
`ts-dumper.py` (the page-processing block of `cli`, lines 233-279, and the
helper `get_text_from_transcript`, lines 92-102).

Modelling conventions:
* xmltodict values are modelled by `JVal` (null / string / list / dict);
  Python `in` on such values and subscripting are modelled by `memJ` and
  `getItemJ`, raising the corresponding Python exceptions through
  `Except PyErr`.
* The network is an oracle: `get_text_from_transcript` takes a function
  from URL to `HttpResponse`; the page loop takes an abstract fetch oracle
  `String → Except PyErr (Option String)` (the result of
  `get_text_from_transcript` per URL) so that the same remote data can be
  replayed.
* File writes are modelled by a write list plus a fault oracle
  `fsFail : String → Option PyErr` (a write to file `n` raises `fsFail n`
  when it is `some`); the filesystem is a map `String → Option String`
  updated write by write.
* The debug call `datetime.datetime.fromtimestamp(max_ts / 1e3)` is a
  logging statement on a float value and is not modelled (floating point);
  timestamps themselves are exact integers.
-/

set_option autoImplicit false

namespace TsDumper

/-- Python exceptions raised by the embedded code fragments. -/
inductive PyErr where
  | valueError (msg : String)
  | indexError (msg : String)
  | keyError (k : String)
  | typeError (msg : String)
  | parseError (msg : String)
  deriving DecidableEq, Repr

/-- Values produced by `xmltodict.parse`: XML text becomes strings, an
element with children becomes a dict, repeated sibling elements become a
list, and an empty element becomes null (Python `None`). -/
inductive JVal where
  | null
  | str (s : String)
  | list (xs : List JVal)
  | dict (kvs : List (String × JVal))

/-- Python `v == k` for a string literal `k`: true only when `v` is the
equal string (a dict, list or `None` never equals a string). -/
def eqJStr (v : JVal) (k : String) : Bool :=
  match v with
  | .str s => s == k
  | _ => false

/-- Whether a value is Python `None`. -/
def isNull (v : JVal) : Bool :=
  match v with
  | .null => true
  | _ => false

/-- Substring test on character lists, for Python `k in s` on strings. -/
def containsSub : List Char → List Char → Bool
  | [], sub => sub.isEmpty
  | c :: rest, sub => sub.isPrefixOf (c :: rest) || containsSub rest sub

/-- Python `k in v`: key membership for dicts, element equality for lists,
substring test for strings, `TypeError` for `None`. -/
def memJ (k : String) (v : JVal) : Except PyErr Bool :=
  match v with
  | .null => .error (.typeError "argument of type NoneType is not iterable")
  | .str s => .ok (containsSub s.data k.data)
  | .list xs => .ok (xs.any (fun x => eqJStr x k))
  | .dict kvs => .ok (kvs.any (fun kv => kv.1 == k))

/-- Python `v[k]` for a string key: dict lookup (first binding), `KeyError`
when the key is absent, `TypeError` on lists, strings and `None`. -/
def getItemJ (v : JVal) (k : String) : Except PyErr JVal :=
  match v with
  | .null => .error (.typeError "NoneType object is not subscriptable")
  | .str _ => .error (.typeError "string indices must be integers")
  | .list _ => .error (.typeError "list indices must be integers, not str")
  | .dict kvs =>
    match kvs.find? (fun kv => kv.1 == k) with
    | some kv => .ok kv.2
    | none => .error (.keyError k)

/-- Body of `get_text_from_transcript` after `pg = tmp['PcGts']['Page']`
(lines 97-102): membership checks on `TextRegion` and `TextEquiv`, then
the `Unicode` field if it is not `None`; otherwise fall through to
`return None`. -/
def get_text_from_page (pg : JVal) : Except PyErr (Option JVal) :=
  match memJ "TextRegion" pg with
  | .error e => .error e
  | .ok false => .ok none
  | .ok true =>
    match getItemJ pg "TextRegion" with
    | .error e => .error e
    | .ok tr =>
      match memJ "TextEquiv" tr with
      | .error e => .error e
      | .ok false => .ok none
      | .ok true =>
        match getItemJ tr "TextEquiv" with
        | .error e => .error e
        | .ok te =>
          match getItemJ te "Unicode" with
          | .error e => .error e
          | .ok u => if isNull u then .ok none else .ok (some u)

/-- `tmp['PcGts']['Page']` followed by the region/text extraction
(lines 95-102 after parsing). -/
def get_text_parse (tmp : JVal) : Except PyErr (Option JVal) :=
  match getItemJ tmp "PcGts" with
  | .error e => .error e
  | .ok a =>
    match getItemJ a "Page" with
    | .error e => .error e
    | .ok pg => get_text_from_page pg

/-- An HTTP response as the transcript fetcher sees it: the status code and
the parse of the body — `none` when `rv.content.decode()` or
`xmltodict.parse` raises on the body. -/
structure HttpResponse where
  status : Nat
  body : Option JVal

/-- `get_text_from_transcript` (lines 92-102): performs the request for
`url` (no status check occurs in the source), parses the body — raising
when it is unparsable — and extracts the text. -/
def get_text_from_transcript (http : String → HttpResponse) (url : String) :
    Except PyErr (Option JVal) :=
  match (http url).body with
  | none => .error (.parseError "syntax error: unparsable response body")
  | some tmp => get_text_parse tmp

/-- One transcript version record as used by the page loop; `timestamp` and
`url` are accessed by subscript (required), while `status`, `userName` and
`nrOfLines` are accessed through `.get` with a default, hence optional. -/
structure Transcript where
  timestamp : Int
  url : String
  status : Option String
  userName : Option String
  nrOfLines : Option Int
  deriving DecidableEq, Repr

/-- A page: `page["imgFileName"]` and `page['tsList']['transcripts']`. -/
structure Page where
  imgFileName : String
  transcripts : List Transcript
  deriving DecidableEq, Repr

/-- Python `max(list)` on integers: `ValueError` on the empty list. -/
def pyMax : List Int → Except PyErr Int
  | [] => .error (.valueError "max() arg is an empty sequence")
  | x :: xs => .ok (xs.foldl max x)

/-- Python `l[i]` on a list: `IndexError` when out of range. -/
def pyIndex {α : Type} (l : List α) (i : Nat) : Except PyErr α :=
  match l.get? i with
  | some x => .ok x
  | none => .error (.indexError "list index out of range")

/-- Index of the last occurrence of `c`, as Python `str.rfind`. -/
def lastIdx (c : Char) : List Char → Option Nat
  | [] => none
  | x :: xs =>
    match lastIdx c xs with
    | some j => some (j + 1)
    | none => if x == c then some 0 else none

/-- The final path component (the part after the last slash). -/
def lastComponent (cs : List Char) : List Char :=
  (cs.reverse.takeWhile (fun c => !(c == '/'))).reverse

/-- `pathlib.Path(nm).stem`: the final component without its suffix, where
the suffix starts at the last dot `i` only when `0 < i < len(name) - 1`. -/
def pathStem (nm : String) : String :=
  let name := lastComponent nm.data
  match lastIdx '.' name with
  | none => String.mk name
  | some i =>
    if 0 < i ∧ i < name.length - 1 then String.mk (name.take i)
    else String.mk name

/-- Line 245-247: `latest = list(filter(lambda x: max_ts == x['timestamp'],
transcripts))`. -/
def latestList (transcripts : List Transcript) (max_ts : Int) : List Transcript :=
  transcripts.filter (fun x => max_ts == x.timestamp)

/-- Lines 250-256: `o_latest = list(filter(lambda x: latest[0]['timestamp']
!= x['timestamp'], transcripts))`. -/
def fallbackList (transcripts : List Transcript) (l0 : Transcript) : List Transcript :=
  transcripts.filter (fun x => !(l0.timestamp == x.timestamp))

/-- The primary selection of lines 242-248: `max` over the timestamps, then
`latest[0]`. -/
def primarySelect (transcripts : List Transcript) : Except PyErr Transcript :=
  match pyMax (transcripts.map (fun t => t.timestamp)) with
  | .error e => .error e
  | .ok max_ts => pyIndex (latestList transcripts max_ts) 0

/-- Lines 248-259: fetch the primary text; when it is `None`, index the
fallback list (raising `IndexError` when it is empty) and fetch from the
fallback URL. -/
def fetchText (fetch : String → Except PyErr (Option String))
    (transcripts : List Transcript) (l0 : Transcript) :
    Except PyErr (Option String) :=
  match fetch l0.url with
  | .error e => .error e
  | .ok (some t) => .ok (some t)
  | .ok none =>
    match pyIndex (fallbackList transcripts l0) 0 with
    | .error e => .error e
    | .ok o0 => fetch o0.url

/-- Lines 268-272: the three metadata lines joined with newlines, with
`.get` defaults `"N/A"`, `"N/A"` and `0`, taken from `latest[0]`. -/
def metaContent (l0 : Transcript) : String :=
  "status:\t" ++ l0.status.getD "N/A" ++
  "\nuserName:\t" ++ l0.userName.getD "N/A" ++
  "\nnrOfLines:\t" ++ toString (l0.nrOfLines.getD 0)

/-- Result of processing one page, as the `try`/`except` of lines 234-278
observes it: the body either completes or raises an exception which is
caught and reported. `skipped` is the outcome the specification names for
pages without transcripts; the code never produces it. -/
inductive Outcome where
  | ok
  | error (e : PyErr)
  | skipped (reason : String)
  deriving DecidableEq, Repr

/-- The `try` body of lines 235-273 for one page: returns the file writes
performed, in program order, together with the outcome of the block (`ok`
when the body finishes, `error e` when an exception `e` is raised — it is
then caught at line 274).  A write that has been performed before a later
exception stays in the list. -/
def pageWrites (fetch : String → Except PyErr (Option String))
    (fsFail : String → Option PyErr) (page : Page) :
    List (String × String) × Outcome :=
  let stem := pathStem page.imgFileName
  let text_file_name := stem ++ ".txt"
  let meta_file_name := stem ++ "-meta.txt"
  match pyMax (page.transcripts.map (fun t => t.timestamp)) with
  | .error e => ([], .error e)
  | .ok max_ts =>
    let latest := latestList page.transcripts max_ts
    match pyIndex latest 0 with
    | .error e => ([], .error e)
    | .ok l0 =>
      match fetchText fetch page.transcripts l0 with
      | .error e => ([], .error e)
      | .ok topt =>
        let text := topt.getD ""
        match fsFail text_file_name with
        | some e => ([], .error e)
        | none =>
          if latest.isEmpty then ([(text_file_name, text)], .ok)
          else
            match fsFail meta_file_name with
            | some e => ([(text_file_name, text)], .error e)
            | none =>
              ([(text_file_name, text), (meta_file_name, metaContent l0)], .ok)

/-- The filesystem: file name to contents. -/
abbrev FS : Type := String → Option String

/-- `path.write_text(v)`: overwrite file `k` with `v`. -/
def insertFS (fs : FS) (k v : String) : FS :=
  fun x => if x = k then some v else fs x

/-- Apply a list of writes in order. -/
def applyWrites (fs : FS) (ws : List (String × String)) : FS :=
  ws.foldl (fun a kv => insertFS a kv.1 kv.2) fs

/-- The last write to file `x` in a write list, if any. -/
def lastW : List (String × String) → String → Option String
  | [], _ => none
  | kv :: ws, x =>
    match lastW ws x with
    | some v => some v
    | none => if x = kv.1 then some kv.2 else none

/-- Process one page against a filesystem: perform its writes and report
its outcome. -/
def processPage (fetch : String → Except PyErr (Option String))
    (fsFail : String → Option PyErr) (fs : FS) (page : Page) : FS × Outcome :=
  let r := pageWrites fetch fsFail page
  (applyWrites fs r.1, r.2)

/-- The page loop of lines 233-279: every page is processed inside the
`try`/`except`; an exception is caught, reported with the page (line
275-278), and the loop continues.  Returns the final filesystem, one
outcome per page in order, and the error reports (page paired with the
caught exception) in order. -/
def processPages (fetch : String → Except PyErr (Option String))
    (fsFail : String → Option PyErr) (fs : FS) :
    List Page → FS × List Outcome × List (Page × PyErr)
  | [] => (fs, [], [])
  | p :: rest =>
    let r := pageWrites fetch fsFail p
    let fs1 := applyWrites fs r.1
    let rec1 := processPages fetch fsFail fs1 rest
    (rec1.1, r.2 :: rec1.2.1,
      match r.2 with
      | .error e => (p, e) :: rec1.2.2
      | _ => rec1.2.2)

/-- A fetch oracle on which every transcript yields no text (the content
document carries no recognized text). -/
def fetchNone : String → Except PyErr (Option String) := fun _ => .ok none

/-- A filesystem on which every write succeeds. -/
def ffNone : String → Option PyErr := fun _ => none

/-- Two versions sharing the timestamp 100 — the all-equal-timestamps page
of claims about the fallback. -/
def pageEqualTs : Page :=
  ⟨"img002.jpg",
    [⟨100, "uA", some "DONE", some "alice", some 3⟩,
     ⟨100, "uB", some "DONE", some "bob", some 4⟩]⟩

/-- A page with a single version, hence no possible fallback. -/
def pageSingle : Page := ⟨"img003.jpg", [⟨100, "uC", none, none, none⟩]⟩

/-- A page with an empty version list. -/
def pageNoVersions : Page := ⟨"img004.jpg", []⟩

end TsDumper

namespace TsDumper

/-- Claim C2 (code evaluated at the failing input): on a page whose two
versions share timestamp 100 and whose primary fetch yields no text, the
fallback computation indexes the empty filtered list, so the page ends in
an `IndexError` with no file written — not a `None` fallback with an empty
text file. -/
theorem C2_all_equal_timestamps_indexerror :
    pageWrites fetchNone ffNone pageEqualTs =
      ([], .error (.indexError "list index out of range")) := by
  rfl

/-- Claim C3 (code evaluated at the failing input): on a page with a single
version whose primary fetch yields no text, no fallback exists and the code
raises `IndexError` instead of writing an empty text file. -/
theorem C3_no_fallback_indexerror :
    pageWrites fetchNone ffNone pageSingle =
      ([], .error (.indexError "list index out of range")) := by
  rfl

/-- Claim C5, counterexample: a page with an empty version list is reported
through the per-page error channel (the `ValueError` raised by `max()` on
an empty sequence), with no writes — not as a `Skipped` outcome with reason
"no transcripts". -/
theorem C5_cex :
    pageWrites fetchNone ffNone pageNoVersions =
      ([], .error (.valueError "max() arg is an empty sequence")) ∧
    Outcome.error (.valueError "max() arg is an empty sequence") ≠
      Outcome.skipped "no transcripts" := by
  exact ⟨rfl, by decide⟩

/-- Claim C5, amended: a page with an empty version list writes no output
files and never lets an exception escape; its outcome is the caught
`ValueError` from `max()` on an empty sequence, reported with the page,
rather than a dedicated `Skipped` outcome. -/
theorem C5_empty_versions (fetch : String → Except PyErr (Option String))
    (fsFail : String → Option PyErr) (page : Page)
    (h : page.transcripts = []) :
    pageWrites fetch fsFail page =
      ([], .error (.valueError "max() arg is an empty sequence")) := by
  simp [pageWrites, h, pyMax]

/-- Witness for `C5_empty_versions` at the concrete empty page. -/
theorem C5_empty_versions_witness :
    pageWrites fetchNone ffNone ⟨"img005.jpg", []⟩ =
      ([], .error (.valueError "max() arg is an empty sequence")) :=
  C5_empty_versions fetchNone ffNone ⟨"img005.jpg", []⟩ rfl

theorem le_foldl_max (xs : List Int) (a : Int) : a ≤ xs.foldl max a := by
  induction xs generalizing a with
  | nil => exact le_refl a
  | cons x xs ih => exact le_trans (le_max_left a x) (ih (max a x))

theorem mem_le_foldl_max (xs : List Int) (a : Int) :
    ∀ x ∈ xs, x ≤ xs.foldl max a := by
  induction xs generalizing a with
  | nil => intro x hx; cases hx
  | cons y ys ih =>
    intro x hx
    rcases List.mem_cons.mp hx with h | h
    · subst h; exact le_trans (le_max_right a x) (le_foldl_max ys (max a x))
    · exact ih (max a y) x h

theorem foldl_max_mem (xs : List Int) (a : Int) :
    xs.foldl max a = a ∨ xs.foldl max a ∈ xs := by
  induction xs generalizing a with
  | nil => left; rfl
  | cons y ys ih =>
    rcases ih (max a y) with h | h
    · rcases max_choice a y with hm | hm
      · left; rw [List.foldl_cons, h, hm]
      · right; rw [List.foldl_cons, h, hm]; exact List.mem_cons_self y ys
    · right; exact List.mem_cons_of_mem y h

theorem pyMax_le (l : List Int) (m : Int) (h : pyMax l = .ok m) :
    ∀ x ∈ l, x ≤ m := by
  cases l with
  | nil => simp [pyMax] at h
  | cons x xs =>
    have hm : m = xs.foldl max x := by
      simpa [pyMax] using h.symm
    intro y hy
    rcases List.mem_cons.mp hy with h1 | h1
    · subst h1; rw [hm]; exact le_foldl_max xs y
    · rw [hm]; exact mem_le_foldl_max xs x y h1

theorem pyMax_mem (l : List Int) (m : Int) (h : pyMax l = .ok m) : m ∈ l := by
  cases l with
  | nil => simp [pyMax] at h
  | cons x xs =>
    have hm : m = xs.foldl max x := by
      simpa [pyMax] using h.symm
    rcases foldl_max_mem xs x with h1 | h1
    · rw [hm, h1]; exact List.mem_cons_self x xs
    · rw [hm]; exact List.mem_cons_of_mem x h1

theorem filter_first {α : Type} (p : α → Bool) :
    ∀ (l : List α) (a : α), (l.filter p).get? 0 = some a →
      ∃ i, ∃ hi : i < l.length, l.get ⟨i, hi⟩ = a ∧ p a = true ∧
        ∀ j, ∀ hj : j < i, p (l.get ⟨j, Nat.lt_trans hj hi⟩) = false := by
  intro l
  induction l with
  | nil => intro a h; simp [List.filter] at h
  | cons x xs ih =>
    intro a h
    by_cases hpx : p x
    · rw [List.filter_cons_of_pos hpx] at h
      have hax : a = x := by simpa using h.symm
      refine ⟨0, Nat.succ_pos _, hax.symm, hax ▸ hpx, ?_⟩
      intro j hj; omega
    · rw [List.filter_cons_of_neg (by simpa using hpx)] at h
      obtain ⟨i, hi, hget, hpa, hfirst⟩ := ih a h
      refine ⟨i + 1, Nat.succ_lt_succ hi, hget, hpa, ?_⟩
      intro j hj
      cases j with
      | zero => simpa using hpx
      | succ k => exact hfirst k (Nat.lt_of_succ_lt_succ hj)

theorem pyIndex_ok_mem {α : Type} (l : List α) (i : Nat) (a : α)
    (h : pyIndex l i = .ok a) : a ∈ l := by
  unfold pyIndex at h
  cases hg : l.get? i with
  | none => rw [hg] at h; cases h
  | some b =>
    rw [hg] at h
    cases h
    exact List.get?_mem hg

/-- Claim C1: for every non-empty version list, the primary selected by
lines 242-248 has a timestamp greater than or equal to every version's
timestamp, and it is the first version in list order achieving that
maximum (every earlier version has a strictly smaller timestamp). -/
theorem C1_primary_latest_first (ts : List Transcript) (h : ts ≠ []) :
    ∃ p, primarySelect ts = .ok p ∧
      (∀ t ∈ ts, t.timestamp ≤ p.timestamp) ∧
      ∃ i, ∃ hi : i < ts.length, ts.get ⟨i, hi⟩ = p ∧
        ∀ j, ∀ hj : j < i,
          (ts.get ⟨j, Nat.lt_trans hj hi⟩).timestamp < p.timestamp := by
  obtain ⟨m, hm⟩ : ∃ m, pyMax (ts.map (fun t => t.timestamp)) = .ok m := by
    cases ts with
    | nil => exact absurd rfl h
    | cons x xs => exact ⟨_, rfl⟩
  have hmem : m ∈ ts.map (fun t => t.timestamp) := pyMax_mem _ m hm
  obtain ⟨t0, ht0, ht0m⟩ := List.mem_map.mp hmem
  have ht0f : t0 ∈ latestList ts m := by
    rw [latestList, List.mem_filter]
    exact ⟨ht0, by simp [ht0m]⟩
  obtain ⟨p, rest, hl⟩ : ∃ p rest, latestList ts m = p :: rest := by
    cases hc : latestList ts m with
    | nil => rw [hc] at ht0f; cases ht0f
    | cons p rest => exact ⟨p, rest, rfl⟩
  have hsel : primarySelect ts = .ok p := by
    simp [primarySelect, hm, pyIndex, hl]
  have hget0 : (ts.filter (fun x => m == x.timestamp)).get? 0 = some p := by
    have : latestList ts m = ts.filter (fun x => m == x.timestamp) := rfl
    rw [← this, hl]; rfl
  obtain ⟨i, hi, hgi, hpa, hfirst⟩ := filter_first _ ts p hget0
  have hpm : p.timestamp = m := (eq_of_beq hpa).symm
  refine ⟨p, hsel, ?_, i, hi, hgi, ?_⟩
  · intro t ht
    rw [hpm]
    exact pyMax_le _ m hm t.timestamp (List.mem_map.mpr ⟨t, ht, rfl⟩)
  · intro j hj
    have hle : (ts.get ⟨j, Nat.lt_trans hj hi⟩).timestamp ≤ m :=
      pyMax_le _ m hm _
        (List.mem_map.mpr ⟨_, List.get_mem ts j (Nat.lt_trans hj hi), rfl⟩)
    have hne : m ≠ (ts.get ⟨j, Nat.lt_trans hj hi⟩).timestamp := by
      have := hfirst j hj
      exact beq_eq_false_iff_ne.mp this
    rw [hpm]
    exact lt_of_le_of_ne hle (fun hq => hne hq.symm)

/-- The three-version list used to witness the primary selection: two
versions tie at the maximal timestamp 200 and the first of them wins. -/
def tsExample : List Transcript :=
  [⟨100, "uA", some "DONE", some "alice", some 5⟩,
   ⟨200, "uB", some "IN_PROGRESS", some "bob", some 0⟩,
   ⟨200, "uC", some "DONE", some "carol", some 7⟩]

/-- Witness for `C1_primary_latest_first` on a concrete tied list. -/
theorem C1_witness :
    ∃ p, primarySelect tsExample = .ok p ∧
      (∀ t ∈ tsExample, t.timestamp ≤ p.timestamp) ∧
      ∃ i, ∃ hi : i < tsExample.length, tsExample.get ⟨i, hi⟩ = p ∧
        ∀ j, ∀ hj : j < i,
          (tsExample.get ⟨j, Nat.lt_trans hj hi⟩).timestamp < p.timestamp :=
  C1_primary_latest_first tsExample (by decide)

/-- Claim C4: for every successfully processed page, the write list is
exactly the text file followed by the metadata file, and the metadata file
is the three newline-joined tab-separated lines for `status`, `userName`
and `nrOfLines` taken from the primary (latest-timestamp) version with
defaults `"N/A"`, `"N/A"` and `0` — whatever fetches produced the text. -/
theorem C4_meta_from_primary (fetch : String → Except PyErr (Option String))
    (fsFail : String → Option PyErr) (page : Page)
    (ws : List (String × String))
    (h : pageWrites fetch fsFail page = (ws, .ok)) :
    ∃ p txt, primarySelect page.transcripts = .ok p ∧
      (∀ t ∈ page.transcripts, t.timestamp ≤ p.timestamp) ∧
      ws = [(pathStem page.imgFileName ++ ".txt", txt),
            (pathStem page.imgFileName ++ "-meta.txt",
             "status:\t" ++ p.status.getD "N/A" ++
             "\nuserName:\t" ++ p.userName.getD "N/A" ++
             "\nnrOfLines:\t" ++ toString (p.nrOfLines.getD 0))] := by
  simp only [pageWrites] at h
  split at h
  · simp at h
  next max_ts hm =>
    split at h
    · simp at h
    next l0 hl =>
      split at h
      · simp at h
      next topt ht =>
        split at h
        · simp at h
        next hf =>
          split at h
          next hemp =>
            exfalso
            rw [List.isEmpty_iff] at hemp
            rw [hemp] at hl
            simp [pyIndex] at hl
          next hemp =>
            split at h
            · simp at h
            next hg =>
              simp only [Prod.mk.injEq, and_true] at h
              have hmemf : l0 ∈ latestList page.transcripts max_ts :=
                pyIndex_ok_mem _ 0 l0 hl
              have hts : max_ts = l0.timestamp := by
                rw [latestList, List.mem_filter] at hmemf
                exact eq_of_beq hmemf.2
              refine ⟨l0, topt.getD "", ?_, ?_, ?_⟩
              · simp [primarySelect, hm, hl]
              · intro t ht0
                rw [← hts]
                exact pyMax_le _ max_ts hm t.timestamp
                  (List.mem_map.mpr ⟨t, ht0, rfl⟩)
              · rw [← h, metaContent]

/-- The two-version page of the specification scenario: the later version
(timestamp 200) is primary, the earlier one (timestamp 100) is the
fallback. -/
def pageScenario : Page :=
  ⟨"img001.jpg",
    [⟨100, "uA", some "DONE", some "alice", some 5⟩,
     ⟨200, "uB", some "IN_PROGRESS", some "bob", some 0⟩]⟩

/-- The fetch oracle of the scenario: the primary URL `uB` yields no text,
the fallback URL `uA` yields the text that gets written. -/
def fetchScenario : String → Except PyErr (Option String) := fun url =>
  if url = "uB" then .ok none
  else if url = "uA" then .ok (some "fallback text")
  else .ok none

/-- Witness for `C4_meta_from_primary`: even though the written text came
from the fallback version, the metadata lines come from the primary. -/
theorem C4_witness :
    ∃ p txt, primarySelect pageScenario.transcripts = .ok p ∧
      (∀ t ∈ pageScenario.transcripts, t.timestamp ≤ p.timestamp) ∧
      [("img001.txt", "fallback text"),
       ("img001-meta.txt",
        "status:\tIN_PROGRESS\nuserName:\tbob\nnrOfLines:\t0")] =
        [(pathStem pageScenario.imgFileName ++ ".txt", txt),
         (pathStem pageScenario.imgFileName ++ "-meta.txt",
          "status:\t" ++ p.status.getD "N/A" ++
          "\nuserName:\t" ++ p.userName.getD "N/A" ++
          "\nnrOfLines:\t" ++ toString (p.nrOfLines.getD 0))] :=
  C4_meta_from_primary fetchScenario ffNone pageScenario
    [("img001.txt", "fallback text"),
     ("img001-meta.txt",
      "status:\tIN_PROGRESS\nuserName:\tbob\nnrOfLines:\t0")] rfl

/-- Claim C10: page export is not atomic — on a page that would succeed,
the write list puts the text file strictly before the metadata file, so
when the metadata write raises, the outcome is an error yet the text file
has already been written and remains in the filesystem. -/
theorem C10_text_before_meta (fetch : String → Except PyErr (Option String))
    (ff1 ff2 : String → Option PyErr) (page : Page)
    (ws : List (String × String)) (e : PyErr)
    (h : pageWrites fetch ff1 page = (ws, .ok))
    (h2t : ff2 (pathStem page.imgFileName ++ ".txt") = none)
    (h2m : ff2 (pathStem page.imgFileName ++ "-meta.txt") = some e) :
    ∃ txt meta, ws = [(pathStem page.imgFileName ++ ".txt", txt),
                      (pathStem page.imgFileName ++ "-meta.txt", meta)] ∧
      pageWrites fetch ff2 page =
        ([(pathStem page.imgFileName ++ ".txt", txt)], .error e) ∧
      ∀ fs : FS, (processPage fetch ff2 fs page).1
        (pathStem page.imgFileName ++ ".txt") = some txt := by
  simp only [pageWrites] at h
  split at h
  · simp at h
  next max_ts hm =>
    split at h
    · simp at h
    next l0 hl =>
      split at h
      · simp at h
      next topt ht =>
        split at h
        · simp at h
        next hf =>
          split at h
          next hemp =>
            exfalso
            rw [List.isEmpty_iff] at hemp
            rw [hemp] at hl
            simp [pyIndex] at hl
          next hemp =>
            split at h
            · simp at h
            next hg =>
              simp only [Prod.mk.injEq, and_true] at h
              refine ⟨topt.getD "", metaContent l0, h.symm, ?_, ?_⟩
              · simp [pageWrites, hm, hl, ht, h2t, h2m, hemp]
              · intro fs
                simp [processPage, pageWrites, hm, hl, ht, h2t, h2m, hemp,
                  applyWrites, insertFS]

/-- A one-version page whose content fetch succeeds, used to witness the
non-atomicity of the export. -/
def pageW10 : Page := ⟨"img006.jpg", [⟨300, "uD", some "DONE", some "dave", some 2⟩]⟩

/-- A filesystem fault oracle on which only the metadata file write of
`pageW10` raises. -/
def ffMetaFail : String → Option PyErr := fun n =>
  if n = "img006-meta.txt" then some (.valueError "disk full") else none

/-- Witness for `C10_text_before_meta` at a concrete page and fault. -/
theorem C10_witness :
    ∃ txt meta,
      ([("img006.txt", "hello"),
        ("img006-meta.txt", "status:\tDONE\nuserName:\tdave\nnrOfLines:\t2")]
        : List (String × String)) =
        [(pathStem pageW10.imgFileName ++ ".txt", txt),
         (pathStem pageW10.imgFileName ++ "-meta.txt", meta)] ∧
      pageWrites (fun _ => .ok (some "hello")) ffMetaFail pageW10 =
        ([(pathStem pageW10.imgFileName ++ ".txt", txt)],
          .error (.valueError "disk full")) ∧
      ∀ fs : FS, (processPage (fun _ => .ok (some "hello")) ffMetaFail fs pageW10).1
        (pathStem pageW10.imgFileName ++ ".txt") = some txt :=
  C10_text_before_meta (fun _ => .ok (some "hello")) ffNone ffMetaFail pageW10
    [("img006.txt", "hello"),
     ("img006-meta.txt", "status:\tDONE\nuserName:\tdave\nnrOfLines:\t2")]
    (.valueError "disk full") rfl rfl rfl

/-- Claim C8: the page loop gives every page exactly one outcome, computed
from that page's own data alone — an exception caught on one page neither
escapes (the outcome list is total) nor changes the processing of any
later page — and every caught exception is reported paired with its
page, in order. -/
theorem C8_per_page_isolation (fetch : String → Except PyErr (Option String))
    (fsFail : String → Option PyErr) (fs : FS) (pages : List Page) :
    (processPages fetch fsFail fs pages).2.1 =
      pages.map (fun p => (pageWrites fetch fsFail p).2) ∧
    (processPages fetch fsFail fs pages).2.2 =
      pages.filterMap (fun p =>
        match (pageWrites fetch fsFail p).2 with
        | .error e => some (p, e)
        | _ => none) := by
  induction pages generalizing fs with
  | nil => exact ⟨rfl, rfl⟩
  | cons p rest ih =>
    obtain ⟨ih1, ih2⟩ := ih (applyWrites fs (pageWrites fetch fsFail p).1)
    constructor
    · simp [processPages, ih1]
    · simp only [processPages, List.filterMap_cons]
      cases ho : (pageWrites fetch fsFail p).2 with
      | ok => simp [ho, ih2]
      | error e => simp [ho, ih2]
      | skipped r => simp [ho, ih2]

theorem applyWrites_eval (ws : List (String × String)) (fs : FS) (x : String) :
    applyWrites fs ws x =
      match lastW ws x with
      | some v => some v
      | none => fs x := by
  induction ws generalizing fs with
  | nil => rfl
  | cons kv ws ih =>
    show applyWrites (insertFS fs kv.1 kv.2) ws x = _
    rw [ih]
    cases h : lastW ws x with
    | some v => simp [lastW, h]
    | none =>
      by_cases hx : x = kv.1
      · subst hx; simp [lastW, h, insertFS]
      · simp [lastW, h, insertFS, hx]

theorem applyWrites_applyWrites (fs : FS) (ws : List (String × String)) :
    applyWrites (applyWrites fs ws) ws = applyWrites fs ws := by
  funext x
  rw [applyWrites_eval, applyWrites_eval]
  cases h : lastW ws x with
  | some v => simp [h]
  | none => simp [h]

/-- Claim C9: exporting a page is idempotent — with the same remote data
(fetch oracle) and fault oracle, processing the page a second time against
the filesystem produced by the first run performs byte-identical writes
that overwrite the first run's files, leaving the filesystem unchanged,
with the same outcome. -/
theorem C9_idempotent (fetch : String → Except PyErr (Option String))
    (fsFail : String → Option PyErr) (fs : FS) (page : Page) :
    processPage fetch fsFail (processPage fetch fsFail fs page).1 page =
      processPage fetch fsFail fs page := by
  simp [processPage, applyWrites_applyWrites]

theorem memJ_dict_none {kvs : List (String × JVal)} {k : String}
    (h : kvs.find? (fun kv => kv.1 == k) = none) :
    memJ k (.dict kvs) = .ok false := by
  have : kvs.any (fun kv => kv.1 == k) = false := by
    rw [List.any_eq_false]
    intro kv hkv
    have := List.find?_eq_none.mp h kv hkv
    simpa using this
  simp [memJ, this]

theorem memJ_dict_some {kvs : List (String × JVal)} {k : String}
    {kv : String × JVal} (h : kvs.find? (fun kv0 => kv0.1 == k) = some kv) :
    memJ k (.dict kvs) = .ok true := by
  have hp := List.find?_some h
  have hmem := List.mem_of_find?_eq_some h
  have : kvs.any (fun kv0 => kv0.1 == k) = true :=
    List.any_eq_true.mpr ⟨kv, hmem, hp⟩
  simp [memJ, this]

theorem getItemJ_dict {kvs : List (String × JVal)} {k : String}
    {kv : String × JVal} (h : kvs.find? (fun kv0 => kv0.1 == k) = some kv) :
    getItemJ (.dict kvs) k = .ok kv.2 := by
  simp [getItemJ, h]

/-- A parsed content document with two `TextRegion` elements (xmltodict
turns repeated siblings into a list); the first region carries the
recognized text `"hello"`. -/
def tmpTwoRegions : JVal :=
  .dict [("PcGts", .dict [("Page", .dict [("TextRegion",
    .list [.dict [("TextEquiv", .dict [("Unicode", .str "hello")])],
           .dict [("TextEquiv", .dict [("Unicode", .str "other")])]])])])]

/-- Claim C6, counterexample: on a page with two text regions whose first
region carries the non-null recognized text `"hello"`, the extraction
returns `None` (the membership test `'TextEquiv' in tr` is performed on a
list), not the text of the first region. -/
theorem C6_cex :
    get_text_parse tmpTwoRegions = Except.ok none ∧
    (Except.ok none : Except PyErr (Option JVal)) ≠
      Except.ok (some (JVal.str "hello")) :=
  ⟨rfl, by simp⟩

/-- Claim C6, amended: the extraction returns `None` when the page record
has no `TextRegion` binding, when its single `TextRegion` record has no
`TextEquiv` binding, when the `Unicode` value is null, and also when
`TextRegion` parsed as a list of records (several text regions); it returns
the `Unicode` value only when `TextRegion` is a single record whose
`TextEquiv` carries a non-null `Unicode` binding. -/
theorem C6_parse_cases (kvs trkvs tekvs : List (String × JVal)) (u : JVal) :
    (kvs.find? (fun kv => kv.1 == "TextRegion") = none →
      get_text_from_page (.dict kvs) = .ok none) ∧
    (kvs.find? (fun kv => kv.1 == "TextRegion") =
        some ("TextRegion", JVal.dict trkvs) →
      trkvs.find? (fun kv => kv.1 == "TextEquiv") = none →
      get_text_from_page (.dict kvs) = .ok none) ∧
    (kvs.find? (fun kv => kv.1 == "TextRegion") =
        some ("TextRegion", JVal.dict trkvs) →
      trkvs.find? (fun kv => kv.1 == "TextEquiv") =
        some ("TextEquiv", JVal.dict tekvs) →
      tekvs.find? (fun kv => kv.1 == "Unicode") =
        some ("Unicode", JVal.null) →
      get_text_from_page (.dict kvs) = .ok none) ∧
    (kvs.find? (fun kv => kv.1 == "TextRegion") =
        some ("TextRegion", JVal.dict trkvs) →
      trkvs.find? (fun kv => kv.1 == "TextEquiv") =
        some ("TextEquiv", JVal.dict tekvs) →
      tekvs.find? (fun kv => kv.1 == "Unicode") = some ("Unicode", u) →
      isNull u = false →
      get_text_from_page (.dict kvs) = .ok (some u)) ∧
    (∀ xs : List JVal,
      kvs.find? (fun kv => kv.1 == "TextRegion") =
        some ("TextRegion", JVal.list xs) →
      (∀ x ∈ xs, eqJStr x "TextEquiv" = false) →
      get_text_from_page (.dict kvs) = .ok none) := by
  refine ⟨?_, ?_, ?_, ?_, ?_⟩
  · intro h0
    simp [get_text_from_page, memJ_dict_none h0]
  · intro h1 h2
    simp [get_text_from_page, memJ_dict_some h1, getItemJ_dict h1,
      memJ_dict_none h2]
  · intro h1 h2 h3
    simp [get_text_from_page, memJ_dict_some h1, getItemJ_dict h1,
      memJ_dict_some h2, getItemJ_dict h2, getItemJ_dict h3, isNull]
  · intro h1 h2 h3 h4
    simp [get_text_from_page, memJ_dict_some h1, getItemJ_dict h1,
      memJ_dict_some h2, getItemJ_dict h2, getItemJ_dict h3, h4]
  · intro xs h1 hxs
    have hany : xs.any (fun x => eqJStr x "TextEquiv") = false := by
      rw [List.any_eq_false]
      intro x hx
      simp [hxs x hx]
    have hany1 : kvs.any (fun kv => kv.1 == "TextRegion") = true :=
      List.any_eq_true.mpr
        ⟨("TextRegion", JVal.list xs), List.mem_of_find?_eq_some h1, by simp⟩
    simp [get_text_from_page, memJ, getItemJ_dict h1, hany1, hany]

/-- Witness for `C6_parse_cases`: a single text region with non-null
recognized text yields that text. -/
theorem C6_parse_cases_witness :
    get_text_from_page
      (.dict [("TextRegion",
        JVal.dict [("TextEquiv", JVal.dict [("Unicode", JVal.str "hola")])])]) =
      .ok (some (JVal.str "hola")) :=
  (C6_parse_cases
    [("TextRegion",
      JVal.dict [("TextEquiv", JVal.dict [("Unicode", JVal.str "hola")])])]
    [("TextEquiv", JVal.dict [("Unicode", JVal.str "hola")])]
    [("Unicode", JVal.str "hola")]
    (JVal.str "hola")).2.2.2.1 rfl rfl rfl rfl

/-- A remote service returning status 404 with a parsable page document
that has no text region. -/
def http404 : String → HttpResponse := fun _ =>
  ⟨404, some (.dict [("PcGts", .dict [("Page",
    .dict [("Width", .str "800")])])])⟩

/-- A remote service whose response body never parses. -/
def httpUnparsable : String → HttpResponse := fun _ => ⟨500, none⟩

/-- Claim C7, counterexample: a response with status 404 whose body parses
is processed normally — the fetch returns `None` instead of failing,
because the source never checks the response status. -/
theorem C7_cex :
    get_text_from_transcript http404 "u" = Except.ok none ∧
    (http404 "u").status = 404 :=
  ⟨rfl, rfl⟩

/-- Claim C7, amended: an unparsable response body makes the fetch raise
(the parse exception propagates to the caller instead of becoming a `None`
result); the HTTP status itself is never inspected. -/
theorem C7_unparsable_raises (http : String → HttpResponse) (url : String)
    (h : (http url).body = none) :
    get_text_from_transcript http url =
      .error (.parseError "syntax error: unparsable response body") := by
  simp [get_text_from_transcript, h]

/-- Witness for `C7_unparsable_raises` on a concrete unparsable body. -/
theorem C7_unparsable_raises_witness :
    get_text_from_transcript httpUnparsable "u" =
      .error (.parseError "syntax error: unparsable response body") :=
  C7_unparsable_raises httpUnparsable "u" rfl

end TsDumper
